import Mathlib

/-!
# Verification of the Joulukortti (Christmas card) game, `src/game.js`

A shallow embedding of the application-level glue of the game: the decal
painter (`addSnowSplat`), the projectile manager (`throwSnowball`, the
snowball update loop, `removeSnowball`, `cleanupPhysics`), the per-snowball
collide handler, the animation frame (`animate`), and the aiming controller
(`updateAiming` / `updateAimVisuals`).

Modelling conventions:
* JavaScript numbers are modelled as rationals (`ℚ`); all the arithmetic the
  claims are about is exact on the inputs involved.
* `Math.random()` draws are passed in explicitly (`SplatRand`); the values
  `Math.cos(angle)` and `Math.sin(angle)` of a random angle are passed as
  rationals `cosA`, `sinA`, since the claims under verification hold for
  arbitrary values of these draws.
* Angles of the aiming controller are measured in units of π radians, so the
  source's `-x * Math.PI / 2` becomes `-x * (1/2)`.
* Meshes and physics bodies are identified by a natural-number id allocated
  from a counter, mirroring cannon-es body ids (which `game.js` itself reads
  as `contact.bi.id === this.cardBody.id`); `new CANNON.Body` /
  `new THREE.Mesh` is modelled as taking a fresh id.
* The third-party physics step `world.step(dt, dt, maxSubSteps)` is an
  oracle (`StepOracle`): an arbitrary function from the timestep, substep
  bound and old pose to the new pose.
-/

namespace Kortti

/-- A 3-component vector of rationals, standing for `THREE.Vector3` /
`CANNON.Vec3`. -/
structure Vec3 where
  x : ℚ
  y : ℚ
  z : ℚ
deriving DecidableEq, Repr

/-- Componentwise addition, as `Vector3.add`. -/
def Vec3.add (a b : Vec3) : Vec3 := ⟨a.x + b.x, a.y + b.y, a.z + b.z⟩

/-- Componentwise subtraction, as `Vector3.sub`. -/
def Vec3.sub (a b : Vec3) : Vec3 := ⟨a.x - b.x, a.y - b.y, a.z - b.z⟩

/-- Scalar multiple, as `Vector3.multiplyScalar`. -/
def Vec3.smul (c : ℚ) (a : Vec3) : Vec3 := ⟨c * a.x, c * a.y, c * a.z⟩

/-- A quaternion (components only; the claims never compute with the algebra),
standing for `THREE.Quaternion` / `CANNON.Quaternion`. -/
structure Quat where
  qx : ℚ
  qy : ℚ
  qz : ℚ
  qw : ℚ
deriving DecidableEq, Repr

/-- The identity quaternion, the default orientation of a fresh
`THREE.Mesh` and of a fresh `CANNON.Body`. -/
def identQuat : Quat := ⟨0, 0, 0, 1⟩

/-- Position plus orientation of a mesh or body. -/
structure Pose where
  pos : Vec3
  quat : Quat
deriving DecidableEq, Repr

/-- A 3×3 matrix over ℚ, given by rows. -/
structure Mat3 where
  r0 : Vec3
  r1 : Vec3
  r2 : Vec3
deriving DecidableEq, Repr

/-- Dot product of two vectors. -/
def Vec3.dot (a b : Vec3) : ℚ := a.x * b.x + a.y * b.y + a.z * b.z

/-- Matrix-vector product. -/
def Mat3.mulVec (m : Mat3) (v : Vec3) : Vec3 :=
  ⟨m.r0.dot v, m.r1.dot v, m.r2.dot v⟩

/-- The card mesh's world transform, as used by `card.worldToLocal`. The card
has unit scale, so its world matrix is a rotation `R` followed by a
translation to `pos`; `rotInv` is the inverse rotation `R⁻¹`. -/
structure CardFrame where
  rotInv : Mat3
  pos : Vec3
deriving DecidableEq, Repr

/-- `THREE.Object3D.worldToLocal`: apply the inverse world matrix to a point,
i.e. `p ↦ R⁻¹ (p - pos)`. -/
def worldToLocal (f : CardFrame) (p : Vec3) : Vec3 :=
  f.rotInv.mulVec (p.sub f.pos)

/-- The local contact normal computed at the top of `addSnowSplat`:
`localNormal.copy(normal); card.worldToLocal(localNormal.add(card.position))`.
Adding the card position first cancels the translation, leaving the pure
rotation `R⁻¹ · normal`. The source then calls `.normalize()`, which scales
by the nonnegative factor `1 / length` (and leaves the zero vector at zero),
so the sign of the `z` component — the only thing `addSnowSplat` reads —
is unchanged; the claims below make this explicit by quantifying over an
arbitrary positive scale factor. -/
def localNormalRaw (f : CardFrame) (normal : Vec3) : Vec3 :=
  worldToLocal f (normal.add f.pos)

/-- `const hitFront = localNormal.z < 0;` in `addSnowSplat`. -/
def hitFront (f : CardFrame) (normal : Vec3) : Bool :=
  decide ((localNormalRaw f normal).z < 0)

/-- `Math.max(lo, Math.min(hi, v))`. -/
def clampQ (lo hi v : ℚ) : ℚ := max lo (min hi v)

/-- One `context.arc(cx, cy, r, 0, 2π)` + `fill` call recorded on a canvas. -/
structure Circle where
  cx : ℚ
  cy : ℚ
  r : ℚ
  opacity : ℚ
deriving DecidableEq, Repr

/-- A 2D canvas: its pixel dimensions and the circles drawn so far. -/
structure Canvas where
  width : ℚ
  height : ℚ
  circles : List Circle
deriving DecidableEq, Repr

/-- The random draws consumed by one satellite circle of `addSnowSplat`:
`smallSize = size * (0.2 + random() * 0.3)`, a random `angle` entering only
through `cos(angle)` and `sin(angle)`, and
`distance = size * (0.5 + random() * 0.5)`. -/
structure SatRand where
  sizeR : ℚ
  cosA : ℚ
  sinA : ℚ
  distR : ℚ
deriving DecidableEq, Repr

/-- All random draws consumed by one `addSnowSplat` call: the main splat's
`size = 20 + random() * 20`, its `opacity = 0.3 + random() * 0.3`, and the
draws of the five satellite circles. -/
structure SplatRand where
  sizeR : ℚ
  opacityR : ℚ
  sats : Fin 5 → SatRand

/-- The decal-painting state: the front and back snow canvases (512×768 at
initialisation) and the `needsUpdate` flags of the two overlay textures. -/
structure DecalState where
  front : Canvas
  back : Canvas
  frontNeedsUpdate : Bool
  backNeedsUpdate : Bool
deriving DecidableEq, Repr

/-- The decal state right after `setupCard`: both canvases are 512×768 and
transparent (no circles drawn). -/
def initDecalState : DecalState :=
  { front := ⟨512, 768, []⟩, back := ⟨512, 768, []⟩,
    frontNeedsUpdate := false, backNeedsUpdate := false }

/-- The UV coordinates computed by `addSnowSplat`:
`u = (localPosition.x / 1.5 + 1) * 0.5`, `v = (localPosition.y / 2.25 + 1) * 0.5`
(the card geometry is `PlaneGeometry(3, 4.5)`, so it extends over
`[-1.5, 1.5] × [-2.25, 2.25]` in local x, y). -/
def splatUV (lp : Vec3) : ℚ × ℚ :=
  ((lp.x / (3/2) + 1) * (1/2), (lp.y / (9/4) + 1) * (1/2))

/-- The canvas-pixel centre of the main splat:
`x = clampedU * canvas.width`, `y = (1 - clampedV) * canvas.height`. -/
def splatPixel (w h : ℚ) (lp : Vec3) : ℚ × ℚ :=
  (clampQ 0 1 (splatUV lp).1 * w, (1 - clampQ 0 1 (splatUV lp).2) * h)

/-- The list of six circles drawn by one `addSnowSplat` call on a canvas of
dimensions `w × h`: the main splat at `splatPixel`, then five satellite
circles whose centres are clamped into `[0, w] × [0, h]`. -/
def splatCircles (w h : ℚ) (lp : Vec3) (rand : SplatRand) : List Circle :=
  let xy := splatPixel w h lp
  let size := 20 + rand.sizeR * 20
  let opacity := 3/10 + rand.opacityR * (3/10)
  let main : Circle := ⟨xy.1, xy.2, size, opacity⟩
  let sats := List.ofFn (fun i : Fin 5 =>
    let r := rand.sats i
    let smallSize := size * (2/10 + r.sizeR * (3/10))
    let distance := size * (1/2 + r.distR * (1/2))
    let sx := clampQ 0 w (xy.1 + r.cosA * distance)
    let sy := clampQ 0 h (xy.2 + r.sinA * distance)
    (⟨sx, sy, smallSize, opacity⟩ : Circle))
  main :: sats

/-- `addSnowSplat(localPosition, normal)`: pick the front canvas when the
local normal's z is negative, draw the main splat and five satellites on it,
and flag that side's overlay texture for update. The other side is not
touched. -/
def addSnowSplat (f : CardFrame) (ds : DecalState)
    (localPosition normal : Vec3) (rand : SplatRand) : DecalState :=
  if hitFront f normal then
    let canvas := ds.front
    { ds with
        front := { canvas with
          circles := canvas.circles ++
            splatCircles canvas.width canvas.height localPosition rand },
        frontNeedsUpdate := true }
  else
    let canvas := ds.back
    { ds with
        back := { canvas with
          circles := canvas.circles ++
            splatCircles canvas.width canvas.height localPosition rand },
        backNeedsUpdate := true }

/-- One snowball, pairing a visual sphere mesh and a dynamic physics sphere
body as built by `throwSnowball`. The shared `id` (the cannon-es body id /
mesh identity) distinguishes allocations. Mesh and body each carry their own
radius and pose, since the source creates them separately
(`new THREE.SphereGeometry(snowballSize)` and
`new CANNON.Sphere(snowballSize)`). -/
structure Ball where
  id : ℕ
  meshRadius : ℚ
  bodyRadius : ℚ
  meshPose : Pose
  bodyPose : Pose
  velocity : Vec3
  timeAlive : ℚ
  isCollided : Bool
deriving DecidableEq, Repr

/-- The game-state fields of `XmasGame` the verified methods touch.
`worldBodyIds` holds the ids of the snowball bodies currently in
`world.bodies`; `sceneMeshIds` the ids of the snowball meshes currently in
the scene; `toRemove` is the `Set` of snowballs marked for safe removal
(identified by id); `aimDir` is the unit aim vector
`(0,0,-1).applyEuler(cannonMesh.rotation)`; `nextId` the allocation counter
behind fresh body/mesh ids. -/
structure GameState where
  hasWorld : Bool
  cardMeshPose : Pose
  cardBodyPose : Pose
  snowballs : List Ball
  toRemove : List ℕ
  worldBodyIds : List ℕ
  sceneMeshIds : List ℕ
  isAiming : Bool
  currentPower : ℚ
  cannonPos : Vec3
  aimDir : Vec3
  aimLinePoints : List Vec3
  nextId : ℕ
deriving DecidableEq, Repr

/-- `throwSnowball(event)`, the `mouseup` handler: when not aiming, return
immediately; otherwise clear the aiming flag, hide the aim line, build a
mesh and a body of radius `parseFloat(sizeSlider.value) * 0.2` at the
cannon's muzzle (cannon position plus `0.5` along the aim direction), give
the body velocity `direction * (currentPower * 0.5)`, add mesh to scene and
body to world, and push the paired snowball onto `this.snowballs`. -/
def throwSnowball (s : GameState) (sliderValue : ℚ) : GameState :=
  if s.isAiming then
    let snowballSize := sliderValue * (2/10)
    let muzzle := s.cannonPos.add (Vec3.smul (1/2) s.aimDir)
    let speed := s.currentPower * (1/2)
    let ball : Ball :=
      { id := s.nextId
        meshRadius := snowballSize
        bodyRadius := snowballSize
        meshPose := ⟨muzzle, identQuat⟩
        bodyPose := ⟨muzzle, identQuat⟩
        velocity := Vec3.smul speed s.aimDir
        timeAlive := 0
        isCollided := false }
    { s with
        isAiming := false
        aimLinePoints := []
        sceneMeshIds := s.nextId :: s.sceneMeshIds
        worldBodyIds := s.nextId :: s.worldBodyIds
        snowballs := s.snowballs ++ [ball]
        nextId := s.nextId + 1 }
  else s

/-- `removeSnowball(snowball)`: mark for removal instead of removing
immediately — `this.toRemove.add(snowball)` (a `Set`, hence no duplicate). -/
def removeSnowball (s : GameState) (ballId : ℕ) : GameState :=
  { s with toRemove :=
      if ballId ∈ s.toRemove then s.toRemove else ballId :: s.toRemove }

/-- `cleanupPhysics()`: for each marked snowball remove its mesh from the
scene, its body from the world (if still there) and the snowball from
`this.snowballs`, then clear `toRemove`. -/
def cleanupPhysics (s : GameState) : GameState :=
  { s with
      sceneMeshIds := s.sceneMeshIds.filter (fun i => i ∉ s.toRemove)
      worldBodyIds := s.worldBodyIds.filter (fun i => i ∉ s.toRemove)
      snowballs := s.snowballs.filter (fun b => b.id ∉ s.toRemove)
      toRemove := [] }

/-- The third-party physics engine's `world.step(dt, dt, maxSubSteps)`, as
an oracle: given the fixed timestep, the substep bound, and (for snowball
bodies) the body id, it produces the body's new pose from its old pose. -/
structure StepOracle where
  card : ℚ → ℕ → Pose → Pose
  ball : ℚ → ℕ → ℕ → Pose → Pose

/-- The effect of `world.step` on the modelled state: every body currently
in the world gets its new pose from the oracle; bodies not in the world, and
everything else in the state, are untouched. -/
def physStep (σ : StepOracle) (dt : ℚ) (maxSubSteps : ℕ)
    (s : GameState) : GameState :=
  { s with
      cardBodyPose := σ.card dt maxSubSteps s.cardBodyPose
      snowballs := s.snowballs.map (fun b =>
        if b.id ∈ s.worldBodyIds then
          { b with bodyPose := σ.ball dt maxSubSteps b.id b.bodyPose }
        else b) }

/-- The per-snowball half of the update loop in `animate`: bump `timeAlive`
by the fixed timestep and copy the mesh pose from the body. -/
def updateOne (dt : ℚ) (b : Ball) : Ball :=
  { b with timeAlive := b.timeAlive + dt, meshPose := b.bodyPose }

/-- The despawn test of the update loop, evaluated after the bump:
`snowball.timeAlive > 5 || snowball.body.position.y < -3`. -/
def despawnCond (dt : ℚ) (b : Ball) : Bool :=
  decide (b.timeAlive + dt > 5) || decide (b.bodyPose.pos.y < -3)

/-- The snowball update loop of `animate`:
`for (let i = snowballs.length - 1; i >= 0; i--)` — the last element is
processed first, so the recursion updates the tail before the head. A ball
is updated only when its body is still in `world.bodies` and it is not in
`toRemove`; when after the bump it is too old or too low, `removeSnowball`
pushes its id onto the accumulating `toRemove`. Returns the updated list and
the final `toRemove`. -/
def updateBalls (dt : ℚ) (wIds : List ℕ) :
    List Ball → List ℕ → List Ball × List ℕ
  | [], tr => ([], tr)
  | b :: rest, tr =>
    let p := updateBalls dt wIds rest tr
    if b.id ∈ wIds ∧ b.id ∉ p.2 then
      let b' := updateOne dt b
      let tr' := if despawnCond dt b then
          (if b.id ∈ p.2 then p.2 else b.id :: p.2) else p.2
      (b' :: p.1, tr')
    else (b :: p.1, p.2)

/-- One animation frame (`animate`), without the cosmetic rendering: when the
physics world exists, step it with the fixed timestep `1/60` and at most `3`
substeps, run `cleanupPhysics`, copy the card mesh pose from the card body,
then run the snowball update loop. Without a world the frame only renders. -/
def animate (σ : StepOracle) (s : GameState) : GameState :=
  if s.hasWorld then
    let s1 := physStep σ (1/60) 3 s
    let s2 := cleanupPhysics s1
    let s3 := { s2 with cardMeshPose := s2.cardBodyPose }
    let p := updateBalls (1/60) s3.worldBodyIds s3.snowballs s3.toRemove
    { s3 with snowballs := p.1, toRemove := p.2 }
  else s

/-- One `collide` event delivered to a snowball body's listener: the id of
the other body (`e.body`). -/
structure CollideEvent where
  otherId : ℕ
deriving DecidableEq, Repr

/-- The accumulated effect of the per-snowball `collide` listener: the
snowball's mutable `isCollided` flag, the number of `addSnowSplat` calls
made so far, and whether `removeSnowball` has scheduled the snowball for
removal. -/
structure CollideAcc where
  ball : Ball
  splats : ℕ
  scheduled : Bool
deriving DecidableEq, Repr

/-- The body of the `collide` listener installed by `throwSnowball`: only
when the snowball has not collided before *and* the other body is the card
body does it set `isCollided`, paint one splat (`addSnowSplat`) and schedule
the snowball for removal; any other event does nothing. -/
def collideStep (cardBodyId : ℕ) (acc : CollideAcc) (e : CollideEvent) :
    CollideAcc :=
  if ¬acc.ball.isCollided ∧ e.otherId = cardBodyId then
    ⟨{ acc.ball with isCollided := true }, acc.splats + 1, true⟩
  else acc

/-- A snowball's `collide` listener run over a whole sequence of collision
events, in order. -/
def runCollide (cardBodyId : ℕ) (b : Ball) (events : List CollideEvent) :
    CollideAcc :=
  events.foldl (collideStep cardBodyId) ⟨b, 0, false⟩

/-- The renderer canvas bounding rectangle
(`renderer.domElement.getBoundingClientRect()`). -/
structure Rect where
  left : ℚ
  top : ℚ
  width : ℚ
  height : ℚ
deriving DecidableEq, Repr

/-- `const x = ((event.clientX - rect.left) / rect.width) * 2 - 1;` -/
def ndcX (r : Rect) (clientX : ℚ) : ℚ :=
  ((clientX - r.left) / r.width) * 2 - 1

/-- `const y = -((event.clientY - rect.top) / rect.height) * 2 + 1;` -/
def ndcY (r : Rect) (clientY : ℚ) : ℚ :=
  -((clientY - r.top) / r.height) * 2 + 1

/-- `const azimuthAngle = (-x * Math.PI / 2);` in units of π radians. -/
def azimuthOf (x : ℚ) : ℚ := -x * (1/2)

/-- `Math.max(0, Math.min(Math.PI / 2, (y + 1) * Math.PI / 2))` in units of
π radians. -/
def elevationOf (y : ℚ) : ℚ := max 0 (min (1/2) ((y + 1) * (1/2)))

/-- The aiming-controller state: the aiming flag, the cannon orientation as
the azimuth/elevation pair (in units of π radians) written by
`cannonMesh.rotation.set(0,0,0); rotateY(azimuth); rotateX(-elevation)`, and
the `currentAim` mouse position. -/
structure AimState where
  isAiming : Bool
  cannonAzimuth : ℚ
  cannonElevation : ℚ
  currentAimX : ℚ
  currentAimY : ℚ
deriving DecidableEq, Repr

/-- `updateAimVisuals(event)`: return unchanged when not aiming, otherwise
recompute the cannon orientation from the normalized mouse coordinates.
(The aim-line update only reads the orientation.) -/
def updateAimVisuals (st : AimState) (r : Rect) (clientX clientY : ℚ) :
    AimState :=
  if st.isAiming then
    { st with
        cannonAzimuth := azimuthOf (ndcX r clientX)
        cannonElevation := elevationOf (ndcY r clientY) }
  else st

/-- `updateAiming(event)`, the `mousemove` handler: return unchanged when
not aiming, otherwise record `currentAim` and call `updateAimVisuals`. -/
def updateAiming (st : AimState) (r : Rect) (clientX clientY : ℚ) :
    AimState :=
  if st.isAiming then
    updateAimVisuals { st with currentAimX := clientX, currentAimY := clientY }
      r clientX clientY
  else st

/-! ## Helper lemmas -/

theorem clampQ_eq_self {lo hi v : ℚ} (h1 : lo ≤ v) (h2 : v ≤ hi) :
    clampQ lo hi v = v := by
  unfold clampQ
  rw [min_eq_right h2, max_eq_right h1]

theorem clampQ_lower (lo hi v : ℚ) : lo ≤ clampQ lo hi v :=
  le_max_left _ _

theorem clampQ_upper {lo hi : ℚ} (h : lo ≤ hi) (v : ℚ) : clampQ lo hi v ≤ hi :=
  max_le h (min_le_left _ _)

theorem splatUV_fst_bounds {lp : Vec3} (hx1 : -(3/2) ≤ lp.x)
    (hx2 : lp.x ≤ 3/2) : 0 ≤ (splatUV lp).1 ∧ (splatUV lp).1 ≤ 1 := by
  unfold splatUV
  have e : (lp.x / (3/2) + 1) * (1/2) = lp.x * (1/3) + 1/2 := by ring
  constructor <;> simp only [e] <;> linarith

theorem splatUV_snd_bounds {lp : Vec3} (hy1 : -(9/4) ≤ lp.y)
    (hy2 : lp.y ≤ 9/4) : 0 ≤ (splatUV lp).2 ∧ (splatUV lp).2 ≤ 1 := by
  unfold splatUV
  have e : (lp.y / (9/4) + 1) * (1/2) = lp.y * (2/9) + 1/2 := by ring
  constructor <;> simp only [e] <;> linarith

/-! ## C1 — proportional decal placement -/

/-- C1: for a contact point on the card face (|x| ≤ 1.5, |y| ≤ 2.25 in the
card's local frame), the decal painter maps the point to
`u = (x / 1.5 + 1) * 0.5`, `v = (y / 2.25 + 1) * 0.5` (the clamps are the
identity there) and centres the main splat at canvas pixel
`(u * canvasWidth, (1 - v) * canvasHeight)`; the splat is appended to the
canvas of the side selected by the local normal. -/
theorem addSnowSplat_proportional_paint
    (f : CardFrame) (ds : DecalState) (lp n : Vec3) (rand : SplatRand)
    (hx1 : -(3/2) ≤ lp.x) (hx2 : lp.x ≤ 3/2)
    (hy1 : -(9/4) ≤ lp.y) (hy2 : lp.y ≤ 9/4) :
    (∀ w h : ℚ, splatPixel w h lp =
        ((lp.x / (3/2) + 1) * (1/2) * w,
         (1 - (lp.y / (9/4) + 1) * (1/2)) * h)) ∧
    (∀ w h : ℚ, (splatCircles w h lp rand).head? = some
        ⟨(lp.x / (3/2) + 1) * (1/2) * w,
         (1 - (lp.y / (9/4) + 1) * (1/2)) * h,
         20 + rand.sizeR * 20, 3/10 + rand.opacityR * (3/10)⟩) ∧
    (hitFront f n = true →
      (addSnowSplat f ds lp n rand).front.circles =
        ds.front.circles ++
          splatCircles ds.front.width ds.front.height lp rand) ∧
    (hitFront f n = false →
      (addSnowSplat f ds lp n rand).back.circles =
        ds.back.circles ++
          splatCircles ds.back.width ds.back.height lp rand) := by
  have hu := splatUV_fst_bounds hx1 hx2
  have hv := splatUV_snd_bounds hy1 hy2
  have hpix : ∀ w h : ℚ, splatPixel w h lp =
      ((lp.x / (3/2) + 1) * (1/2) * w,
       (1 - (lp.y / (9/4) + 1) * (1/2)) * h) := by
    intro w h
    unfold splatPixel
    rw [clampQ_eq_self hu.1 hu.2, clampQ_eq_self hv.1 hv.2]
    rfl
  refine ⟨hpix, ?_, ?_, ?_⟩
  · intro w h
    simp only [splatCircles, List.head?, hpix w h]
  · intro hf
    simp only [addSnowSplat, hf, if_true]
  · intro hf
    simp only [addSnowSplat, hf, Bool.false_eq_true, if_false]

/-- C1 witness: a corner hit — local contact point `(1.5, 2.25, 0)`, the top
right corner of the card face — is painted at canvas corner `(512, 0)` on a
512×768 canvas. -/
theorem addSnowSplat_proportional_paint_witness :
    splatPixel 512 768 ⟨3/2, 9/4, 0⟩ = ((512 : ℚ), (0 : ℚ)) := by
  have h := addSnowSplat_proportional_paint
    ⟨⟨⟨1,0,0⟩, ⟨0,1,0⟩, ⟨0,0,1⟩⟩, ⟨0,0,0⟩⟩ initDecalState
    ⟨3/2, 9/4, 0⟩ ⟨0,0,-1⟩ ⟨0, 0, fun _ => ⟨0, 1, 0, 0⟩⟩
    (by norm_num) (by norm_num) (by norm_num) (by norm_num)
  rw [h.1 512 768]
  norm_num

/-! ## C8 — splat centres are clamped into the canvas -/

/-- C8: for every card-local contact position, even one outside the card
face, each of the six circle centres drawn by `addSnowSplat` (main splat and
five satellites) is clamped into `[0, width] × [0, height]`; every circle on
either canvas after the call is either an old circle or has its centre
inside the canvas bounds. -/
theorem addSnowSplat_centres_clamped
    (f : CardFrame) (ds : DecalState) (lp n : Vec3) (rand : SplatRand)
    (hfw : 0 ≤ ds.front.width) (hfh : 0 ≤ ds.front.height)
    (hbw : 0 ≤ ds.back.width) (hbh : 0 ≤ ds.back.height) :
    (∀ c ∈ (addSnowSplat f ds lp n rand).front.circles,
       c ∈ ds.front.circles ∨
       (0 ≤ c.cx ∧ c.cx ≤ ds.front.width ∧
        0 ≤ c.cy ∧ c.cy ≤ ds.front.height)) ∧
    (∀ c ∈ (addSnowSplat f ds lp n rand).back.circles,
       c ∈ ds.back.circles ∨
       (0 ≤ c.cx ∧ c.cx ≤ ds.back.width ∧
        0 ≤ c.cy ∧ c.cy ≤ ds.back.height)) := by
  have key : ∀ w h : ℚ, 0 ≤ w → 0 ≤ h →
      ∀ c ∈ splatCircles w h lp rand,
        0 ≤ c.cx ∧ c.cx ≤ w ∧ 0 ≤ c.cy ∧ c.cy ≤ h := by
    intro w h hw hh c hc
    have hu0 : (0 : ℚ) ≤ clampQ 0 1 (splatUV lp).1 := clampQ_lower _ _ _
    have hu1 : clampQ 0 1 (splatUV lp).1 ≤ 1 := clampQ_upper (by norm_num) _
    have hv0 : (0 : ℚ) ≤ clampQ 0 1 (splatUV lp).2 := clampQ_lower _ _ _
    have hv1 : clampQ 0 1 (splatUV lp).2 ≤ 1 := clampQ_upper (by norm_num) _
    have hmx : 0 ≤ (splatPixel w h lp).1 ∧ (splatPixel w h lp).1 ≤ w := by
      constructor
      · exact mul_nonneg hu0 hw
      · calc clampQ 0 1 (splatUV lp).1 * w ≤ 1 * w :=
              mul_le_mul_of_nonneg_right hu1 hw
          _ = w := one_mul w
    have hmy : 0 ≤ (splatPixel w h lp).2 ∧ (splatPixel w h lp).2 ≤ h := by
      constructor
      · exact mul_nonneg (by linarith) hh
      · calc (1 - clampQ 0 1 (splatUV lp).2) * h ≤ 1 * h := by
              apply mul_le_mul_of_nonneg_right _ hh
              linarith
          _ = h := one_mul h
    simp only [splatCircles, List.mem_cons, List.mem_ofFn] at hc
    rcases hc with hc | ⟨i, hi⟩
    · subst hc
      exact ⟨hmx.1, hmx.2, hmy.1, hmy.2⟩
    · rw [← hi]
      refine ⟨clampQ_lower _ _ _, clampQ_upper hw _,
        clampQ_lower _ _ _, clampQ_upper hh _⟩
  constructor
  · intro c hc
    by_cases hf : hitFront f n
    · simp only [addSnowSplat, hf, if_true, List.mem_append] at hc
      rcases hc with hc | hc
      · exact Or.inl hc
      · exact Or.inr (by
          have := key ds.front.width ds.front.height hfw hfh c hc
          exact ⟨this.1, this.2.1, this.2.2.1, this.2.2.2⟩)
    · simp only [addSnowSplat, hf, Bool.false_eq_true, if_false] at hc
      exact Or.inl hc
  · intro c hc
    by_cases hf : hitFront f n
    · simp only [addSnowSplat, hf, if_true] at hc
      exact Or.inl hc
    · simp only [addSnowSplat, hf, Bool.false_eq_true, if_false,
        List.mem_append] at hc
      rcases hc with hc | hc
      · exact Or.inl hc
      · exact Or.inr (by
          have := key ds.back.width ds.back.height hbw hbh c hc
          exact ⟨this.1, this.2.1, this.2.2.1, this.2.2.2⟩)

/-- C8 witness: at a contact far off the card face (local position
`(100, -100, 0)`) on the fresh 512×768 canvases, the main splat drawn by
the call still has its centre inside the canvas bounds. -/
theorem addSnowSplat_centres_clamped_witness :
    (List.head (splatCircles (512 : ℚ) 768 ⟨100, -100, 0⟩
        ⟨0, 0, fun _ => ⟨0, 1, 0, 0⟩⟩) (by simp [splatCircles]) ∈
      initDecalState.front.circles) ∨
    (0 ≤ (List.head (splatCircles (512 : ℚ) 768 ⟨100, -100, 0⟩
        ⟨0, 0, fun _ => ⟨0, 1, 0, 0⟩⟩) (by simp [splatCircles])).cx ∧
     (List.head (splatCircles (512 : ℚ) 768 ⟨100, -100, 0⟩
        ⟨0, 0, fun _ => ⟨0, 1, 0, 0⟩⟩) (by simp [splatCircles])).cx ≤
       initDecalState.front.width ∧
     0 ≤ (List.head (splatCircles (512 : ℚ) 768 ⟨100, -100, 0⟩
        ⟨0, 0, fun _ => ⟨0, 1, 0, 0⟩⟩) (by simp [splatCircles])).cy ∧
     (List.head (splatCircles (512 : ℚ) 768 ⟨100, -100, 0⟩
        ⟨0, 0, fun _ => ⟨0, 1, 0, 0⟩⟩) (by simp [splatCircles])).cy ≤
       initDecalState.front.height) := by
  apply (addSnowSplat_centres_clamped
    ⟨⟨⟨1,0,0⟩, ⟨0,1,0⟩, ⟨0,0,1⟩⟩, ⟨0,0,0⟩⟩ initDecalState
    ⟨100, -100, 0⟩ ⟨0,0,-1⟩ ⟨0, 0, fun _ => ⟨0, 1, 0, 0⟩⟩
    (by norm_num [initDecalState]) (by norm_num [initDecalState])
    (by norm_num [initDecalState]) (by norm_num [initDecalState])).1
  have hfront : (addSnowSplat ⟨⟨⟨1,0,0⟩, ⟨0,1,0⟩, ⟨0,0,1⟩⟩, ⟨0,0,0⟩⟩
      initDecalState ⟨100, -100, 0⟩ ⟨0,0,-1⟩
      ⟨0, 0, fun _ => ⟨0, 1, 0, 0⟩⟩).front.circles =
      initDecalState.front.circles ++
        splatCircles (512 : ℚ) 768 ⟨100, -100, 0⟩
          ⟨0, 0, fun _ => ⟨0, 1, 0, 0⟩⟩ := by
    simp [addSnowSplat, hitFront, localNormalRaw, worldToLocal,
      Mat3.mulVec, Vec3.dot, Vec3.add, Vec3.sub, initDecalState]
  rw [hfront]
  exact List.mem_append_right _ (List.head_mem _)

/-! ## C10 — side selection and the untouched opposite side -/

/-- C10: `addSnowSplat` draws on the front canvas iff the contact normal
taken into the card's local space and normalized has negative z — stated for
an arbitrary positive normalization factor `c`, since `normalize` scales by
`1/length > 0` (and fixes the zero vector, whose z is 0 either way); and the
canvas and overlay-update flag of the opposite side are unchanged. -/
theorem addSnowSplat_side_selection
    (f : CardFrame) (ds : DecalState) (lp n : Vec3) (rand : SplatRand)
    (c : ℚ) (hc : 0 < c) :
    (hitFront f n = true ↔ (Vec3.smul c (localNormalRaw f n)).z < 0) ∧
    (hitFront f n = true →
       (addSnowSplat f ds lp n rand).front.circles =
         ds.front.circles ++
           splatCircles ds.front.width ds.front.height lp rand ∧
       (addSnowSplat f ds lp n rand).frontNeedsUpdate = true ∧
       (addSnowSplat f ds lp n rand).back = ds.back ∧
       (addSnowSplat f ds lp n rand).backNeedsUpdate = ds.backNeedsUpdate) ∧
    (hitFront f n = false →
       (addSnowSplat f ds lp n rand).back.circles =
         ds.back.circles ++
           splatCircles ds.back.width ds.back.height lp rand ∧
       (addSnowSplat f ds lp n rand).backNeedsUpdate = true ∧
       (addSnowSplat f ds lp n rand).front = ds.front ∧
       (addSnowSplat f ds lp n rand).frontNeedsUpdate =
         ds.frontNeedsUpdate) := by
  refine ⟨?_, ?_, ?_⟩
  · unfold hitFront Vec3.smul
    simp only [decide_eq_true_eq]
    constructor
    · intro h
      exact mul_neg_of_pos_of_neg hc h
    · intro h
      by_contra hz
      push_neg at hz
      have : 0 ≤ c * (localNormalRaw f n).z := mul_nonneg (le_of_lt hc) hz
      simp only [Vec3.smul] at h
      linarith
  · intro hf
    simp only [addSnowSplat, hf, if_true]
    refine ⟨?_, ?_, ?_, ?_⟩ <;> trivial
  · intro hf
    simp only [addSnowSplat, hf, Bool.false_eq_true, if_false]
    refine ⟨?_, ?_, ?_, ?_⟩ <;> trivial

/-- C10 witness: with the identity card frame, the world normal `(0,0,-1)`
(pointing from the card towards the thrower) selects the front canvas:
instantiating the side-selection theorem at scale factor 1 yields that the
back canvas is untouched. -/
theorem addSnowSplat_side_selection_witness :
    (addSnowSplat ⟨⟨⟨1,0,0⟩, ⟨0,1,0⟩, ⟨0,0,1⟩⟩, ⟨0,0,0⟩⟩ initDecalState
      ⟨0, 0, 0⟩ ⟨0,0,-1⟩ ⟨0, 0, fun _ => ⟨0, 1, 0, 0⟩⟩).back =
      initDecalState.back := by
  have h := addSnowSplat_side_selection
    ⟨⟨⟨1,0,0⟩, ⟨0,1,0⟩, ⟨0,0,1⟩⟩, ⟨0,0,0⟩⟩ initDecalState
    ⟨0, 0, 0⟩ ⟨0,0,-1⟩ ⟨0, 0, fun _ => ⟨0, 1, 0, 0⟩⟩ 1 (by norm_num)
  exact (h.2.1 (by simp [hitFront, localNormalRaw, worldToLocal,
    Mat3.mulVec, Vec3.dot, Vec3.add, Vec3.sub])).2.2.1

/-! ## C2 — at most one splat per snowball -/

theorem collide_foldl_collided (cardId : ℕ) (events : List CollideEvent)
    (acc : CollideAcc) (h : acc.ball.isCollided = true) :
    events.foldl (collideStep cardId) acc = acc := by
  induction events with
  | nil => rfl
  | cons e rest ih =>
    have hstep : collideStep cardId acc e = acc := by
      unfold collideStep
      rw [if_neg]
      rintro ⟨h1, _⟩
      exact h1 h
    simp only [List.foldl_cons, hstep]
    exact ih

theorem collide_foldl_run (cardId : ℕ) (events : List CollideEvent)
    (acc : CollideAcc) (h : acc.ball.isCollided = false) :
    ((∃ e ∈ events, e.otherId = cardId) →
        events.foldl (collideStep cardId) acc =
          ⟨{ acc.ball with isCollided := true }, acc.splats + 1, true⟩) ∧
    ((∀ e ∈ events, e.otherId ≠ cardId) →
        events.foldl (collideStep cardId) acc = acc) := by
  induction events generalizing acc with
  | nil =>
    constructor
    · rintro ⟨e, he, -⟩
      cases he
    · intro _
      rfl
  | cons e rest ih =>
    constructor
    · rintro ⟨e', he', hcard⟩
      by_cases hc : e.otherId = cardId
      · have hstep : collideStep cardId acc e =
            ⟨{ acc.ball with isCollided := true }, acc.splats + 1, true⟩ := by
          unfold collideStep
          rw [if_pos ⟨by simp [h], hc⟩]
        simp only [List.foldl_cons, hstep]
        exact collide_foldl_collided cardId rest _ rfl
      · have hstep : collideStep cardId acc e = acc := by
          unfold collideStep
          rw [if_neg]
          rintro ⟨-, hcc⟩
          exact hc hcc
        simp only [List.foldl_cons, hstep]
        rcases List.mem_cons.mp he' with rfl | hmem
        · exact absurd hcard hc
        · exact (ih acc h).1 ⟨e', hmem, hcard⟩
    · intro hall
      have hstep : collideStep cardId acc e = acc := by
        unfold collideStep
        rw [if_neg]
        rintro ⟨-, hcc⟩
        exact hall e (List.mem_cons_self e rest) hcc
      simp only [List.foldl_cons, hstep]
      exact (ih acc h).2 (fun e' he' => hall e' (List.mem_cons_of_mem e he'))

/-- C2: a freshly spawned snowball's `collide` listener paints at most one
splat over any sequence of collision events; a sequence containing no
collision with the card body paints nothing and changes nothing, and as
soon as some event is a card hit, exactly one splat is painted, the
snowball is marked `isCollided`, and it is scheduled for removal. -/
theorem collide_listener_single_splat (cardId : ℕ) (b : Ball)
    (events : List CollideEvent) (hb : b.isCollided = false) :
    (runCollide cardId b events).splats ≤ 1 ∧
    ((∀ e ∈ events, e.otherId ≠ cardId) →
        (runCollide cardId b events).splats = 0 ∧
        runCollide cardId b events = ⟨b, 0, false⟩) ∧
    ((∃ e ∈ events, e.otherId = cardId) →
        (runCollide cardId b events).splats = 1 ∧
        (runCollide cardId b events).ball.isCollided = true ∧
        (runCollide cardId b events).scheduled = true) := by
  have hrun := collide_foldl_run cardId events ⟨b, 0, false⟩ hb
  refine ⟨?_, ?_, ?_⟩
  · by_cases hex : ∃ e ∈ events, e.otherId = cardId
    · rw [runCollide, hrun.1 hex]
    · push_neg at hex
      rw [runCollide, hrun.2 hex]
      norm_num
  · intro hall
    rw [runCollide, hrun.2 hall]
    exact ⟨rfl, rfl⟩
  · intro hex
    rw [runCollide, hrun.1 hex]
    exact ⟨rfl, rfl, rfl⟩

/-- C2 witness: a snowball receiving first a ground collision (body 3), then
two collisions with the card (body 7), paints exactly one splat. -/
theorem collide_listener_single_splat_witness :
    (runCollide 7
      ⟨0, 0, 0, ⟨⟨0,0,0⟩, identQuat⟩, ⟨⟨0,0,0⟩, identQuat⟩, ⟨0,0,0⟩, 0, false⟩
      [⟨3⟩, ⟨7⟩, ⟨7⟩]).splats = 1 := by
  have h := collide_listener_single_splat 7
    ⟨0, 0, 0, ⟨⟨0,0,0⟩, identQuat⟩, ⟨⟨0,0,0⟩, identQuat⟩, ⟨0,0,0⟩, 0, false⟩
    [⟨3⟩, ⟨7⟩, ⟨7⟩] rfl
  exact (h.2.2 ⟨⟨7⟩, by simp, rfl⟩).1

/-! ## C3 — spawning a snowball on mouseup -/

/-- C3: a `mouseup` while aiming appends exactly one snowball whose mesh and
body share the radius `sliderValue * 0.2` and the muzzle position
`cannonPos + 0.5 · aimDir`, with body velocity `(currentPower * 0.5) · aimDir`,
and clears the aiming flag; a `mouseup` while not aiming leaves the whole
state (in particular the snowball list) unchanged. -/
theorem throwSnowball_spawn (s : GameState) (sliderValue : ℚ) :
    (s.isAiming = true →
      ∃ ball : Ball,
        (throwSnowball s sliderValue).snowballs = s.snowballs ++ [ball] ∧
        ball.meshRadius = sliderValue * (2/10) ∧
        ball.bodyRadius = ball.meshRadius ∧
        ball.meshPose.pos = s.cannonPos.add (Vec3.smul (1/2) s.aimDir) ∧
        ball.bodyPose.pos = ball.meshPose.pos ∧
        ball.velocity = Vec3.smul (s.currentPower * (1/2)) s.aimDir ∧
        (throwSnowball s sliderValue).isAiming = false) ∧
    (s.isAiming = false → throwSnowball s sliderValue = s) := by
  constructor
  · intro ha
    refine ⟨{ id := s.nextId
              meshRadius := sliderValue * (2/10)
              bodyRadius := sliderValue * (2/10)
              meshPose := ⟨s.cannonPos.add (Vec3.smul (1/2) s.aimDir), identQuat⟩
              bodyPose := ⟨s.cannonPos.add (Vec3.smul (1/2) s.aimDir), identQuat⟩
              velocity := Vec3.smul (s.currentPower * (1/2)) s.aimDir
              timeAlive := 0
              isCollided := false }, ?_, rfl, rfl, rfl, rfl, rfl, ?_⟩
    · simp only [throwSnowball, ha, if_true]
    · simp only [throwSnowball, ha, if_true]
  · intro ha
    simp only [throwSnowball, ha, Bool.false_eq_true, if_false]

/-- C3 witness: from a concrete aiming state (cannon at `(0, -3/2, 4)`,
aiming straight ahead, power 30, slider 5), the spawned snowball's mesh and
body radius are both 1 and the body velocity is `(0, 0, -15)`. -/
theorem throwSnowball_spawn_witness :
    ∃ ball : Ball,
      (throwSnowball
        ⟨true, ⟨⟨0,0,0⟩, identQuat⟩, ⟨⟨0,0,0⟩, identQuat⟩, [], [], [], [],
         true, 30, ⟨0, -3/2, 4⟩, ⟨0, 0, -1⟩, [], 0⟩ 5).snowballs =
        [] ++ [ball] ∧
      ball.meshRadius = 5 * (2/10) ∧
      ball.bodyRadius = ball.meshRadius ∧
      ball.meshPose.pos = Vec3.add ⟨0, -3/2, 4⟩ (Vec3.smul (1/2) ⟨0, 0, -1⟩) ∧
      ball.bodyPose.pos = ball.meshPose.pos ∧
      ball.velocity = Vec3.smul (30 * (1/2)) ⟨0, 0, -1⟩ ∧
      (throwSnowball
        ⟨true, ⟨⟨0,0,0⟩, identQuat⟩, ⟨⟨0,0,0⟩, identQuat⟩, [], [], [], [],
         true, 30, ⟨0, -3/2, 4⟩, ⟨0, 0, -1⟩, [], 0⟩ 5).isAiming = false :=
  (throwSnowball_spawn
    ⟨true, ⟨⟨0,0,0⟩, identQuat⟩, ⟨⟨0,0,0⟩, identQuat⟩, [], [], [], [],
     true, 30, ⟨0, -3/2, 4⟩, ⟨0, 0, -1⟩, [], 0⟩ 5).1 rfl

/-! ## C4 — the card pose is driven by the physics step -/

/-- C4: on every animation frame in which the physics world exists, the card
body is advanced by the physics step called with the fixed timestep `1/60`
and substep bound `3`, and the card mesh's pose ends the frame equal to the
card body's pose, before the frame is rendered. -/
theorem animate_card_pose (σ : StepOracle) (s : GameState)
    (h : s.hasWorld = true) :
    (animate σ s).cardMeshPose = (animate σ s).cardBodyPose ∧
    (animate σ s).cardBodyPose = σ.card (1/60) 3 s.cardBodyPose := by
  simp [animate, h, physStep, cleanupPhysics]

/-- C4 witness: with a physics step that drops the card body one unit in y
each frame, starting from the origin, after one frame the card mesh pose
equals the card body pose, which in turn is the stepped pose. -/
theorem animate_card_pose_witness :
    (animate
        ⟨fun _ _ p => ⟨⟨p.pos.x, p.pos.y - 1, p.pos.z⟩, p.quat⟩,
         fun _ _ _ p => p⟩
        ⟨true, ⟨⟨0,0,0⟩, identQuat⟩, ⟨⟨0,0,0⟩, identQuat⟩, [], [], [], [],
         false, 30, ⟨0, -3/2, 4⟩, ⟨0, 0, -1⟩, [], 0⟩).cardMeshPose =
      (animate
        ⟨fun _ _ p => ⟨⟨p.pos.x, p.pos.y - 1, p.pos.z⟩, p.quat⟩,
         fun _ _ _ p => p⟩
        ⟨true, ⟨⟨0,0,0⟩, identQuat⟩, ⟨⟨0,0,0⟩, identQuat⟩, [], [], [], [],
         false, 30, ⟨0, -3/2, 4⟩, ⟨0, 0, -1⟩, [], 0⟩).cardBodyPose :=
  (animate_card_pose
    ⟨fun _ _ p => ⟨⟨p.pos.x, p.pos.y - 1, p.pos.z⟩, p.quat⟩,
     fun _ _ _ p => p⟩
    ⟨true, ⟨⟨0,0,0⟩, identQuat⟩, ⟨⟨0,0,0⟩, identQuat⟩, [], [], [], [],
     false, 30, ⟨0, -3/2, 4⟩, ⟨0, 0, -1⟩, [], 0⟩ rfl).1

/-! ## C9 — deferred removal protocol -/

/-- C9: `removeSnowball` only adds its argument to `toRemove` and mutates
neither the scene, nor the physics world, nor the snowball list, nor the
card poses; after `cleanupPhysics` the `toRemove` set is empty, every
previously marked id is gone from the world body list and the scene mesh
list, and every surviving snowball was unmarked; the physics step itself
never adds or removes bodies, meshes, or snowballs. -/
theorem removeSnowball_cleanup_protocol (s : GameState) (i : ℕ) :
    ((removeSnowball s i).sceneMeshIds = s.sceneMeshIds ∧
     (removeSnowball s i).worldBodyIds = s.worldBodyIds ∧
     (removeSnowball s i).snowballs = s.snowballs ∧
     (removeSnowball s i).cardMeshPose = s.cardMeshPose ∧
     (removeSnowball s i).cardBodyPose = s.cardBodyPose ∧
     (removeSnowball s i).hasWorld = s.hasWorld ∧
     i ∈ (removeSnowball s i).toRemove ∧
     (∀ j ∈ (removeSnowball s i).toRemove, j = i ∨ j ∈ s.toRemove)) ∧
    ((cleanupPhysics s).toRemove = [] ∧
     (∀ j ∈ s.toRemove,
        j ∉ (cleanupPhysics s).worldBodyIds ∧
        j ∉ (cleanupPhysics s).sceneMeshIds) ∧
     (∀ b ∈ (cleanupPhysics s).snowballs, b.id ∉ s.toRemove)) ∧
    (∀ σ : StepOracle, ∀ dt : ℚ, ∀ n : ℕ,
       (physStep σ dt n s).worldBodyIds = s.worldBodyIds ∧
       (physStep σ dt n s).sceneMeshIds = s.sceneMeshIds ∧
       (physStep σ dt n s).snowballs.length = s.snowballs.length) := by
  refine ⟨⟨rfl, rfl, rfl, rfl, rfl, rfl, ?_, ?_⟩, ⟨rfl, ?_, ?_⟩, ?_⟩
  · unfold removeSnowball
    by_cases hi : i ∈ s.toRemove
    · simp [hi]
    · simp [hi]
  · intro j hj
    unfold removeSnowball at hj
    by_cases hi : i ∈ s.toRemove
    · simp only [hi, if_true] at hj
      exact Or.inr hj
    · simp only [hi, if_false] at hj
      rcases List.mem_cons.mp hj with rfl | hj'
      · exact Or.inl rfl
      · exact Or.inr hj'
  · intro j hj
    constructor
    · intro hmem
      simp only [cleanupPhysics, List.mem_filter, decide_not,
        Bool.not_eq_eq_eq_not, Bool.not_true, decide_eq_false_iff_not] at hmem
      exact hmem.2 hj
    · intro hmem
      simp only [cleanupPhysics, List.mem_filter, decide_not,
        Bool.not_eq_eq_eq_not, Bool.not_true, decide_eq_false_iff_not] at hmem
      exact hmem.2 hj
  · intro b hb
    simp only [cleanupPhysics, List.mem_filter, decide_not,
      Bool.not_eq_eq_eq_not, Bool.not_true, decide_eq_false_iff_not] at hb
    exact hb.2
  · intro σ dt n
    exact ⟨rfl, rfl, by simp [physStep]⟩

/-- C9 witness: in a concrete state with snowball 5 marked for removal and
snowball 6 unmarked, `cleanupPhysics` leaves body 5 out of the world. -/
theorem removeSnowball_cleanup_protocol_witness :
    (5 : ℕ) ∉ (cleanupPhysics
      ⟨true, ⟨⟨0,0,0⟩, identQuat⟩, ⟨⟨0,0,0⟩, identQuat⟩,
       [], [5], [5, 6], [5, 6], false, 30, ⟨0, -3/2, 4⟩, ⟨0, 0, -1⟩,
       [], 7⟩).worldBodyIds :=
  (((removeSnowball_cleanup_protocol
      ⟨true, ⟨⟨0,0,0⟩, identQuat⟩, ⟨⟨0,0,0⟩, identQuat⟩,
       [], [5], [5, 6], [5, 6], false, 30, ⟨0, -3/2, 4⟩, ⟨0, 0, -1⟩,
       [], 7⟩ 5).2.1.2.1 5 (by simp)).1)

/-! ## C7 — no object pooling: every throw allocates afresh -/

/-- A concrete initial state used to exhibit the snowball allocation
behaviour: no snowballs yet, allocation counter at 0, aiming. -/
def poolScenario0 : GameState :=
  ⟨true, ⟨⟨0,0,0⟩, identQuat⟩, ⟨⟨0,0,0⟩, identQuat⟩, [], [], [], [],
   true, 30, ⟨0, -3/2, 4⟩, ⟨0, 0, -1⟩, [], 0⟩

/-- After the first throw. -/
def poolScenario1 : GameState := throwSnowball poolScenario0 5

/-- After the first snowball (id 0) is despawned: marked by `removeSnowball`
and then processed by `cleanupPhysics`. -/
def poolScenario2 : GameState := cleanupPhysics (removeSnowball poolScenario1 0)

/-- After aiming again and making a second throw. -/
def poolScenario3 : GameState :=
  throwSnowball { poolScenario2 with isAiming := true } 5

/-- C7 counterexample: the lifecycle is not pooling. The first throw creates
the snowball with body/mesh id 0; despawning it removes it from the scene,
world and list, retaining it nowhere; the next throw does not reuse the
despawned snowball's resources but allocates a fresh mesh and body with the
next id 1 (the allocation counter advances to 2, one fresh allocation per
throw). -/
theorem no_pooling_counterexample :
    poolScenario1.snowballs.map Ball.id = [0] ∧
    poolScenario2.snowballs = [] ∧
    poolScenario2.worldBodyIds = [] ∧
    poolScenario2.sceneMeshIds = [] ∧
    poolScenario3.snowballs.map Ball.id = [1] ∧
    (0 : ℕ) ∉ poolScenario3.snowballs.map Ball.id ∧
    poolScenario3.nextId = 2 := by
  refine ⟨?_, ?_, ?_, ?_, ?_, ?_, ?_⟩ <;>
    simp [poolScenario3, poolScenario2, poolScenario1, poolScenario0,
      throwSnowball, removeSnowball, cleanupPhysics]

/-- C7 amended claim, proved: every throw while aiming allocates a brand-new
mesh/body pair under the fresh id `nextId` — distinct from every live
snowball's id — and advances the allocation counter; a despawned snowball is
simply dropped by `cleanupPhysics` (the state retains it nowhere), so no
resource is pooled or reused. -/
theorem throwSnowball_fresh_allocation (s : GameState) (sv : ℚ)
    (ha : s.isAiming = true)
    (hfresh : ∀ b ∈ s.snowballs, b.id < s.nextId) :
    ∃ ball : Ball,
      (throwSnowball s sv).snowballs = s.snowballs ++ [ball] ∧
      ball.id = s.nextId ∧
      (∀ b ∈ s.snowballs, b.id ≠ ball.id) ∧
      (throwSnowball s sv).nextId = s.nextId + 1 ∧
      (cleanupPhysics s).snowballs =
        s.snowballs.filter (fun b => b.id ∉ s.toRemove) := by
  refine ⟨{ id := s.nextId
            meshRadius := sv * (2/10)
            bodyRadius := sv * (2/10)
            meshPose := ⟨s.cannonPos.add (Vec3.smul (1/2) s.aimDir), identQuat⟩
            bodyPose := ⟨s.cannonPos.add (Vec3.smul (1/2) s.aimDir), identQuat⟩
            velocity := Vec3.smul (s.currentPower * (1/2)) s.aimDir
            timeAlive := 0
            isCollided := false }, ?_, rfl, ?_, ?_, rfl⟩
  · simp only [throwSnowball, ha, if_true]
  · intro b hb
    exact Nat.ne_of_lt (hfresh b hb)
  · simp only [throwSnowball, ha, if_true]

/-- C7 amended-claim witness: in a state with one live snowball of id 0 and
counter 1, the next throw allocates id 1 and bumps the counter to 2. -/
theorem throwSnowball_fresh_allocation_witness :
    ∃ ball : Ball,
      (throwSnowball
        ⟨true, ⟨⟨0,0,0⟩, identQuat⟩, ⟨⟨0,0,0⟩, identQuat⟩,
         [⟨0, 1, 1, ⟨⟨0,0,0⟩, identQuat⟩, ⟨⟨0,0,0⟩, identQuat⟩,
           ⟨0,0,0⟩, 0, false⟩],
         [], [0], [0], true, 30, ⟨0, -3/2, 4⟩, ⟨0, 0, -1⟩, [], 1⟩ 5).snowballs =
        [⟨0, 1, 1, ⟨⟨0,0,0⟩, identQuat⟩, ⟨⟨0,0,0⟩, identQuat⟩,
          ⟨0,0,0⟩, 0, false⟩] ++ [ball] ∧
      ball.id = 1 ∧
      (∀ b ∈ [(⟨0, 1, 1, ⟨⟨0,0,0⟩, identQuat⟩, ⟨⟨0,0,0⟩, identQuat⟩,
          ⟨0,0,0⟩, 0, false⟩ : Ball)], b.id ≠ ball.id) ∧
      (throwSnowball
        ⟨true, ⟨⟨0,0,0⟩, identQuat⟩, ⟨⟨0,0,0⟩, identQuat⟩,
         [⟨0, 1, 1, ⟨⟨0,0,0⟩, identQuat⟩, ⟨⟨0,0,0⟩, identQuat⟩,
           ⟨0,0,0⟩, 0, false⟩],
         [], [0], [0], true, 30, ⟨0, -3/2, 4⟩, ⟨0, 0, -1⟩, [], 1⟩ 5).nextId =
        2 := by
  obtain ⟨ball, h1, h2, h3, h4, -⟩ := throwSnowball_fresh_allocation
    ⟨true, ⟨⟨0,0,0⟩, identQuat⟩, ⟨⟨0,0,0⟩, identQuat⟩,
     [⟨0, 1, 1, ⟨⟨0,0,0⟩, identQuat⟩, ⟨⟨0,0,0⟩, identQuat⟩,
       ⟨0,0,0⟩, 0, false⟩],
     [], [0], [0], true, 30, ⟨0, -3/2, 4⟩, ⟨0, 0, -1⟩, [], 1⟩ 5
    rfl (by intro b hb; simp at hb; subst hb; norm_num)
  exact ⟨ball, h1, h2, h3, h4⟩

/-! ## C5 — aiming controller angle ranges -/

/-- C5: while aiming, a processed mouse event sets the cannon azimuth to
`-x * π/2` (angles here are in units of π, so the value is `-x * 1/2`),
which lies in `[-π/2, π/2]` whenever the normalized device coordinate `x`
is in `[-1, 1]`, and the clamped elevation always lies in `[0, π/2]`; when
not aiming, both `updateAimVisuals` and `updateAiming` leave the state, in
particular the cannon orientation, unchanged. -/
theorem updateAim_angles (st : AimState) (r : Rect) (cx cy : ℚ)
    (hx1 : -1 ≤ ndcX r cx) (hx2 : ndcX r cx ≤ 1) :
    (st.isAiming = true →
      (updateAimVisuals st r cx cy).cannonAzimuth = -(ndcX r cx) * (1/2) ∧
      -(1/2) ≤ (updateAimVisuals st r cx cy).cannonAzimuth ∧
      (updateAimVisuals st r cx cy).cannonAzimuth ≤ 1/2 ∧
      0 ≤ (updateAimVisuals st r cx cy).cannonElevation ∧
      (updateAimVisuals st r cx cy).cannonElevation ≤ 1/2) ∧
    (st.isAiming = false →
      updateAimVisuals st r cx cy = st ∧ updateAiming st r cx cy = st) := by
  constructor
  · intro ha
    simp only [updateAimVisuals, ha, if_true]
    refine ⟨rfl, ?_, ?_, ?_, ?_⟩
    · unfold azimuthOf
      linarith
    · unfold azimuthOf
      linarith
    · exact le_max_left 0 _
    · exact max_le (by norm_num) (min_le_left _ _)
  · intro ha
    simp only [updateAimVisuals, updateAiming, ha, Bool.false_eq_true,
      if_false]
    refine ⟨?_, ?_⟩ <;> trivial

/-- C5 witness: on an 800×600 canvas rectangle at the origin, a mouse event
at client position (0, 0) while aiming has normalized coordinate x = -1 and
sets the azimuth to `π/2` (value 1/2 in units of π), the leftmost extreme of
the admissible range. -/
theorem updateAim_angles_witness :
    (updateAimVisuals ⟨true, 0, 0, 0, 0⟩ ⟨0, 0, 800, 600⟩ 0 0).cannonAzimuth =
      -(ndcX ⟨0, 0, 800, 600⟩ 0) * (1/2) ∧
    (updateAimVisuals ⟨true, 0, 0, 0, 0⟩ ⟨0, 0, 800, 600⟩ 0 0).cannonAzimuth ≤
      1/2 := by
  have h := (updateAim_angles ⟨true, 0, 0, 0, 0⟩ ⟨0, 0, 800, 600⟩ 0 0
    (by norm_num [ndcX]) (by norm_num [ndcX])).1 rfl
  exact ⟨h.1, h.2.2.1⟩

/-! ## C6 — per-frame snowball ageing and despawning -/

theorem updateBalls_characterization (dt : ℚ) (wIds : List ℕ)
    (balls : List Ball) (tr : List ℕ)
    (hnd : (balls.map Ball.id).Nodup)
    (htr : ∀ b ∈ balls, b.id ∉ tr) :
    updateBalls dt wIds balls tr =
      (balls.map (fun b => if b.id ∈ wIds then updateOne dt b else b),
       ((balls.filter (fun b =>
           decide (b.id ∈ wIds) && despawnCond dt b)).map Ball.id) ++ tr) := by
  induction balls with
  | nil => rfl
  | cons b rest ih =>
    rw [List.map_cons, List.nodup_cons] at hnd
    obtain ⟨hbid, hnd'⟩ := hnd
    have htr' : ∀ x ∈ rest, x.id ∉ tr :=
      fun x hx => htr x (List.mem_cons_of_mem b hx)
    have hbtr : b.id ∉ tr := htr b (List.mem_cons_self b rest)
    have hrec := ih hnd' htr'
    have hnotin : b.id ∉
        ((rest.filter (fun x =>
            decide (x.id ∈ wIds) && despawnCond dt x)).map Ball.id) ++ tr := by
      intro hmem
      rcases List.mem_append.mp hmem with hm | hm
      · apply hbid
        obtain ⟨x, hx, hxe⟩ := List.mem_map.mp hm
        exact List.mem_map.mpr ⟨x, (List.mem_filter.mp hx).1, hxe⟩
      · exact hbtr hm
    simp only [updateBalls, hrec]
    by_cases hbw : b.id ∈ wIds
    · rw [if_pos ⟨hbw, hnotin⟩]
      by_cases hdp : despawnCond dt b
      · rw [List.filter_cons_of_pos (by simp [hbw, hdp])]
        simp [hbw, hdp, hnotin]
      · rw [List.filter_cons_of_neg (by simp [hbw, hdp])]
        simp [hbw, hdp]
    · rw [if_neg (by rintro ⟨h1, -⟩; exact hbw h1)]
      rw [List.filter_cons_of_neg (by simp [hbw])]
      simp [hbw]

/-- C6: one animation frame with a live world maps the snowball list as
follows: the physics step advances the body pose of every snowball whose
body is in the world, `cleanupPhysics` drops the snowballs marked in
`toRemove`, and the update loop then, for exactly the remaining snowballs
whose bodies are still in the world, adds the fixed timestep `1/60` to
`timeAlive` and copies the mesh pose from the body pose (`updateOne`); the
new `toRemove` holds exactly the ids of those updated snowballs for which
`timeAlive + 1/60 > 5` or the body's y fell below `-3` (`despawnCond`),
and running the next frame's cleanup on the result removes each such id
from the world, the scene, and the snowball list. -/
theorem animate_snowball_lifecycle (σ : StepOracle) (s : GameState)
    (hw : s.hasWorld = true) (hnd : (s.snowballs.map Ball.id).Nodup) :
    ((animate σ s).snowballs =
       ((s.snowballs.map (fun b =>
            if b.id ∈ s.worldBodyIds then
              { b with bodyPose := σ.ball (1/60) 3 b.id b.bodyPose }
            else b)).filter (fun b => decide (b.id ∉ s.toRemove))).map
         (fun b =>
            if b.id ∈ s.worldBodyIds.filter (fun i => decide (i ∉ s.toRemove))
            then updateOne (1/60) b else b)) ∧
    ((animate σ s).toRemove =
       (((s.snowballs.map (fun b =>
            if b.id ∈ s.worldBodyIds then
              { b with bodyPose := σ.ball (1/60) 3 b.id b.bodyPose }
            else b)).filter (fun b => decide (b.id ∉ s.toRemove))).filter
         (fun b =>
            decide (b.id ∈
              s.worldBodyIds.filter (fun i => decide (i ∉ s.toRemove))) &&
            despawnCond (1/60) b)).map Ball.id) ∧
    (∀ i ∈ (animate σ s).toRemove,
       i ∉ (cleanupPhysics (animate σ s)).worldBodyIds ∧
       i ∉ (cleanupPhysics (animate σ s)).sceneMeshIds ∧
       (∀ b ∈ (cleanupPhysics (animate σ s)).snowballs, b.id ≠ i)) := by
  have hcleanup : ∀ t : GameState, ∀ i ∈ t.toRemove,
      i ∉ (cleanupPhysics t).worldBodyIds ∧
      i ∉ (cleanupPhysics t).sceneMeshIds ∧
      (∀ b ∈ (cleanupPhysics t).snowballs, b.id ≠ i) := by
    intro t i hi
    refine ⟨?_, ?_, ?_⟩
    · intro hmem
      simp only [cleanupPhysics, List.mem_filter,
        decide_eq_true_eq] at hmem
      exact hmem.2 hi
    · intro hmem
      simp only [cleanupPhysics, List.mem_filter,
        decide_eq_true_eq] at hmem
      exact hmem.2 hi
    · intro b hb
      simp only [cleanupPhysics, List.mem_filter,
        decide_eq_true_eq] at hb
      intro he
      exact hb.2 (he ▸ hi)
  have hstepid : ∀ b : Ball,
      (if b.id ∈ s.worldBodyIds then
        { b with bodyPose := σ.ball (1/60) 3 b.id b.bodyPose }
      else b).id = b.id := by
    intro b
    by_cases hb : b.id ∈ s.worldBodyIds <;> simp [hb]
  have hnd2 : (((s.snowballs.map (fun b =>
      if b.id ∈ s.worldBodyIds then
        { b with bodyPose := σ.ball (1/60) 3 b.id b.bodyPose }
      else b)).filter (fun b => decide (b.id ∉ s.toRemove))).map
        Ball.id).Nodup := by
    have h1 : (s.snowballs.map (fun b =>
        if b.id ∈ s.worldBodyIds then
          { b with bodyPose := σ.ball (1/60) 3 b.id b.bodyPose }
        else b)).map Ball.id = s.snowballs.map Ball.id := by
      rw [List.map_map]
      exact List.map_congr_left (fun b _ => hstepid b)
    have hsub := (List.filter_sublist (l := s.snowballs.map (fun b =>
        if b.id ∈ s.worldBodyIds then
          { b with bodyPose := σ.ball (1/60) 3 b.id b.bodyPose }
        else b)) (p := fun b => decide (b.id ∉ s.toRemove))).map Ball.id
    rw [h1] at hsub
    exact hnd.sublist hsub
  have hchar := updateBalls_characterization (1/60)
    (s.worldBodyIds.filter (fun i => decide (i ∉ s.toRemove)))
    ((s.snowballs.map (fun b =>
        if b.id ∈ s.worldBodyIds then
          { b with bodyPose := σ.ball (1/60) 3 b.id b.bodyPose }
        else b)).filter (fun b => decide (b.id ∉ s.toRemove)))
    [] hnd2 (by intro b _; exact List.not_mem_nil b.id)
  refine ⟨?_, ?_, ?_⟩
  · simp only [animate, hw, if_true, physStep, cleanupPhysics, hchar]
  · simp only [animate, hw, if_true, physStep, cleanupPhysics, hchar,
      List.append_nil]
  · intro i hi
    exact hcleanup (animate σ s) i hi

/-- C6 witness: a single in-world snowball aged 4.99 seconds is updated to
timeAlive `4.99 + 1/60 > 5` and therefore marked; the subsequent cleanup
empties world, scene and snowball list. An identity physics step is used. -/
theorem animate_snowball_lifecycle_witness :
    (animate ⟨fun _ _ p => p, fun _ _ _ p => p⟩
      ⟨true, ⟨⟨0,0,0⟩, identQuat⟩, ⟨⟨0,0,0⟩, identQuat⟩,
       [⟨0, 1, 1, ⟨⟨0,0,0⟩, identQuat⟩, ⟨⟨0,0,0⟩, identQuat⟩,
         ⟨0,0,0⟩, 499/100, false⟩],
       [], [0], [0], false, 30, ⟨0, -3/2, 4⟩, ⟨0, 0, -1⟩, [], 1⟩).snowballs =
    [updateOne (1/60)
      ⟨0, 1, 1, ⟨⟨0,0,0⟩, identQuat⟩, ⟨⟨0,0,0⟩, identQuat⟩,
        ⟨0,0,0⟩, 499/100, false⟩] := by
  have h := (animate_snowball_lifecycle ⟨fun _ _ p => p, fun _ _ _ p => p⟩
    ⟨true, ⟨⟨0,0,0⟩, identQuat⟩, ⟨⟨0,0,0⟩, identQuat⟩,
     [⟨0, 1, 1, ⟨⟨0,0,0⟩, identQuat⟩, ⟨⟨0,0,0⟩, identQuat⟩,
       ⟨0,0,0⟩, 499/100, false⟩],
     [], [0], [0], false, 30, ⟨0, -3/2, 4⟩, ⟨0, 0, -1⟩, [], 1⟩
    rfl (by simp)).1
  rw [h]
  simp

end Kortti
